import Mathlib

/-!
JWT access-token issuance of graphql-services/auth (`jwt.go`).

A shallow embedding of `JWTAccessClaims.Valid` and `JWTAccessGenerate.Token`
together with the parts of the Go standard library they lean on
(`time.Unix`, `Time.Before`, `Time.Add`, `strings.HasPrefix`,
`strings.TrimRight`, `strings.ToUpper`, `base64.URLEncoding`).

Conventions.
* Go `int64` values are integers, wrapped with `wrap64` wherever Go's
  arithmetic can overflow.
* A Go `error` result is an `Option GoError`; `none` is `nil`.
* The user store is a field of the generator; the other external
  collaborators of `Token` (scope validator, PEM parser, the signing
  primitives under `SignedString`, UUID source) are fields of `Collaborators`.
  Every call `Token` makes to code outside `jwt.go` is recorded, in order, in
  the trace that it returns next to its outcome.
* A run-time panic is the outcome `Outcome.panicked`.
-/

namespace Auth

/-! ## Machine integers and the `time` package -/

/-- Two's-complement wrap of an integer into the `int64` range. -/
def wrap64 (x : Int) : Int := (x + 2 ^ 63) % 2 ^ 64 - 2 ^ 63

/-- The largest `int64`. -/
def maxInt64 : Int := 2 ^ 63 - 1

/-- The smallest `int64`. -/
def minInt64 : Int := -(2 ^ 63)

/-- Membership in the `int64` range. -/
def isInt64 (x : Int) : Prop := minInt64 ≤ x ∧ x ≤ maxInt64

instance (x : Int) : Decidable (isInt64 x) := by
  unfold isInt64; exact inferInstance

/-- Go `time.unixToInternal`: seconds from Jan 1, year 1 to Jan 1, 1970,
`(1969*365 + 1969/4 - 1969/100 + 1969/400) * 86400`. -/
def unixToInternal : Int := (1969 * 365 + 1969 / 4 - 1969 / 100 + 1969 / 400) * 86400

/-- Go `time.internalToUnix`. -/
def internalToUnix : Int := -unixToInternal

/-- The wall-clock reading of a Go `time.Time`: whole seconds since
Jan 1, year 1 (an `int64`, what `Time.sec()` returns) and the nanoseconds
within that second (what `Time.nsec()` returns). The monotonic reading is left
out: `Before` only consults it when both operands carry one, and a value built
by `time.Unix` never does. -/
structure Time where
  sec : Int
  nsec : Nat
  deriving DecidableEq, Repr

namespace Time

/-- A reading is well formed when its seconds fit `int64` and its nanoseconds
lie in `[0, 999999999]`, as Go maintains. -/
def wf (t : Time) : Prop := isInt64 t.sec ∧ t.nsec < 1000000000

instance (t : Time) : Decidable (wf t) := by
  unfold wf; exact inferInstance

/-- Go `time.Unix(sec, 0)`: `unixTime(sec, 0)`, that is
`Time{wall: 0, ext: sec + unixToInternal}` with `int64` addition. (The
normalisation of the nanosecond argument is skipped by Go as well when it is
already within range, as `0` is.) -/
def Unix (sec : Int) : Time :=
  { sec := wrap64 (sec + unixToInternal), nsec := 0 }

/-- Go `Time.Before`: `ts < us || ts == us && t.nsec() < u.nsec()`. -/
def Before (t u : Time) : Bool :=
  decide (t.sec < u.sec) || (decide (t.sec = u.sec) && decide (t.nsec < u.nsec))

/-- Go `Time.After`: `ts > us || ts == us && t.nsec() > u.nsec()`. -/
def After (t u : Time) : Bool :=
  decide (t.sec > u.sec) || (decide (t.sec = u.sec) && decide (t.nsec > u.nsec))

/-- Go `Time.Equal` on wall-clock readings. -/
def Equal (t u : Time) : Bool :=
  decide (t.sec = u.sec) && decide (t.nsec = u.nsec)

/-- Go `Time.addSec`: add `d` seconds, saturating at the ends of `int64`. -/
def addSec (t : Time) (d : Int) : Time :=
  let sum := wrap64 (t.sec + d)
  if decide (sum > t.sec) = decide (d > 0) then { t with sec := sum }
  else if d > 0 then { t with sec := 2 ^ 63 - 1 }
  else { t with sec := -(2 ^ 63 - 1) }

/-- Go `Time.Add(d)` for a duration of `d` nanoseconds: split `d` with
truncating division, carry the nanoseconds, then `addSec`. -/
def Add (t : Time) (d : Int) : Time :=
  let dsec := Int.tdiv d 1000000000
  let nsec : Int := (t.nsec : Int) + Int.tmod d 1000000000
  if nsec ≥ 1000000000 then
    addSec { t with nsec := (nsec - 1000000000).toNat } (dsec + 1)
  else if nsec < 0 then
    addSec { t with nsec := (nsec + 1000000000).toNat } (dsec - 1)
  else
    addSec { t with nsec := nsec.toNat } dsec

/-- Go `Time.Unix()` (the accessor): `t.sec() + internalToUnix`. -/
def UnixSeconds (t : Time) : Int := wrap64 (t.sec + internalToUnix)

/-- The instant a reading denotes, in nanoseconds since the Unix epoch, as an
unbounded integer. -/
def instant (t : Time) : Int := (t.sec - unixToInternal) * 1000000000 + t.nsec

end Time

/-- The instant `sec` seconds after the Unix epoch, in nanoseconds. -/
def epochInstant (sec : Int) : Int := sec * 1000000000

/-! ## Errors -/

/-- An error value built outside `jwt.go`, by a collaborator. -/
structure ForeignError where
  msg : String
  deriving DecidableEq, Repr

/-- The error values `jwt.go` can hand to its callers. -/
inductive GoError where
  /-- The sentinel `errors.ErrInvalidAccessToken` of `gopkg.in/oauth2.v3/errors`. -/
  | ErrInvalidAccessToken
  /-- A value built in `jwt.go` itself by `errs.New(text)`. -/
  | New (text : String)
  /-- A collaborator's error, passed on as received. -/
  | foreign (e : ForeignError)
  deriving DecidableEq, Repr

/-! ## Claims -/

/-- Go `JWTUser`. -/
structure JWTUser where
  Email : String
  deriving DecidableEq, Repr

/-- Go `jwt.StandardClaims`. -/
structure StandardClaims where
  Audience : String := ""
  ExpiresAt : Int := 0
  Id : String := ""
  IssuedAt : Int := 0
  Issuer : String := ""
  NotBefore : Int := 0
  Subject : String := ""
  deriving DecidableEq, Repr

/-- Go `JWTAccessClaims`. -/
structure JWTAccessClaims where
  Scope : String
  User : JWTUser
  StandardClaims : StandardClaims
  deriving DecidableEq, Repr

/-- Go `(*JWTAccessClaims).Valid`, with the reading of `time.Now()` passed in
as `now`. -/
def JWTAccessClaims.Valid (a : JWTAccessClaims) (now : Time) : Option GoError :=
  if (Time.Unix a.StandardClaims.ExpiresAt).Before now then
    some GoError.ErrInvalidAccessToken
  else
    none

/-! ## The `strings` and `encoding/base64` packages -/

namespace strings

/-- Go `strings.HasPrefix(s, p)`. -/
def HasPrefix (s p : String) : Bool := p.data.isPrefixOf s.data

/-- Go `strings.TrimRight(s, cutset)`: drop every trailing character that
occurs in `cutset`. -/
def TrimRight (s cutset : String) : String :=
  ⟨s.data.rdropWhile (fun c => decide (c ∈ cutset.data))⟩

/-- Go `strings.ToUpper(s)` on ASCII text: every `a`..`z` becomes `A`..`Z`,
every other ASCII character stays. -/
def ToUpper (s : String) : String := ⟨s.data.map Char.toUpper⟩

end strings

namespace base64

/-- Go `base64.encodeURL`, the URL-safe alphabet. -/
def encodeURL : List Char :=
  "ABCDEFGHIJKLMNOPQRSTUVWXYZabcdefghijklmnopqrstuvwxyz0123456789-_".data

/-- Go `base64.StdPadding`. -/
def StdPadding : Char := '='

/-- The alphabet lookup `enc.encode[i]` of `URLEncoding`; every call site
masks the index with `0x3F`. -/
def encodeAt (i : Nat) : Char := encodeURL.getD (i % 64) 'A'

/-- Go `base64.URLEncoding.Encode`: three bytes make four characters; a
trailing group of one or two bytes makes two or three characters followed by
padding. -/
def encodeBytes : List UInt8 → List Char
  | [] => []
  | [b0] =>
    let val := b0.toNat <<< 16
    [encodeAt (val >>> 18 &&& 0x3F), encodeAt (val >>> 12 &&& 0x3F), StdPadding, StdPadding]
  | [b0, b1] =>
    let val := b0.toNat <<< 16 ||| b1.toNat <<< 8
    [encodeAt (val >>> 18 &&& 0x3F), encodeAt (val >>> 12 &&& 0x3F),
      encodeAt (val >>> 6 &&& 0x3F), StdPadding]
  | b0 :: b1 :: b2 :: rest =>
    let val := b0.toNat <<< 16 ||| b1.toNat <<< 8 ||| b2.toNat
    encodeAt (val >>> 18 &&& 0x3F) :: encodeAt (val >>> 12 &&& 0x3F) ::
      encodeAt (val >>> 6 &&& 0x3F) :: encodeAt (val &&& 0x3F) :: encodeBytes rest

/-- Go `base64.URLEncoding.EncodeToString`. -/
def EncodeToString (src : List UInt8) : String := ⟨encodeBytes src⟩

end base64

/-! ## The grant record, the generator and its collaborators -/

/-- The user record of the store (`User` of the repository's model). -/
structure User where
  ID : String
  Email : String
  deriving DecidableEq, Repr

/-- An elliptic-curve private key, as `jwt.ParseECPrivateKeyFromPEM` returns
it; `jwt.go` only passes it on to the signer. -/
structure ECPrivateKey where
  D : Nat
  deriving DecidableEq, Repr

/-- The dynamic value held by an `interface{}` key: nothing, a byte slice, a
parsed elliptic-curve key, or a value of any other Go type (named by
`goType`, for instance `string` or `*rsa.PrivateKey`). -/
inductive KeyValue where
  | nil
  | bytes (b : List UInt8)
  | ecdsaPrivateKey (k : ECPrivateKey)
  | other (goType : String)
  deriving DecidableEq, Repr

/-- Go `jwt.SigningMethod`, as far as `jwt.go` looks at it: its `Alg()`. -/
structure SigningMethod where
  Alg : String
  deriving DecidableEq, Repr

namespace jwt

/-- Go `jwt.Token`. -/
structure Token where
  Header : List (String × String)
  Claims : JWTAccessClaims
  Method : SigningMethod
  deriving DecidableEq, Repr

/-- Go `jwt.NewWithClaims`. -/
def NewWithClaims (method : SigningMethod) (claims : JWTAccessClaims) : Token :=
  { Header := [("typ", "JWT"), ("alg", method.Alg)], Claims := claims, Method := method }

end jwt

/-- Go `uuid.UUID`, an array of 16 bytes. -/
structure UUID where
  bytes : List UInt8
  size : bytes.length = 16
  deriving DecidableEq

/-- Go `UUID.Bytes()`. -/
def UUID.Bytes (u : UUID) : List UInt8 := u.bytes

/-- Go `oauth2.ClientInfo`, as far as `jwt.go` looks at it: its `GetID()`. -/
structure ClientInfo where
  ID : String
  deriving DecidableEq, Repr

/-- Go `oauth2.TokenInfo`, as far as `jwt.go` looks at it:
`GetAccessCreateAt()` and `GetAccessExpiresIn()` (a duration in nanoseconds). -/
structure TokenInfo where
  AccessCreateAt : Time
  AccessExpiresIn : Int
  deriving DecidableEq, Repr

/-- Go `http.Request`, as far as `jwt.go` looks at it: `FormValue`. -/
structure Request where
  FormValue : String → String

/-- Go `oauth2.GenerateBasic`, the grant record. -/
structure GenerateBasic where
  Client : ClientInfo
  UserID : String
  CreateAt : Time
  TokenInfo : TokenInfo
  Request : Request

/-- The repository's `UserStore`: its `GetUser` returns a user record and an
error. -/
structure UserStore where
  GetUser : String → User × Option ForeignError

/-- Go `JWTAccessGenerate`. -/
structure JWTAccessGenerate where
  SignedKey : KeyValue
  SignedMethod : SigningMethod
  UserStore : UserStore

/-- Go `NewJWTAccessGenerate`. -/
def NewJWTAccessGenerate (key : KeyValue) (method : SigningMethod) (userStore : UserStore) :
    JWTAccessGenerate :=
  { SignedKey := key, SignedMethod := method, UserStore := userStore }

/-- The functions `Token` calls that live outside `jwt.go`; each may behave in
any way its Go signature allows.
* `validateScopeForUser scope userID` (the context argument carries nothing
  the result is read from);
* `ParseECPrivateKeyFromPEM pem` of jwt-go;
* `SigningString token`, the method of `jwt.Token` that serialises header and
  claims;
* `Sign method signingString key`, the `Sign` method of the signing method;
* `NewRandom`, the result of the one `uuid.NewRandom()` call of a run;
* `NewSHA1 space data` of the uuid package. -/
structure Collaborators where
  validateScopeForUser : String → String → String × Option ForeignError
  ParseECPrivateKeyFromPEM : List UInt8 → ECPrivateKey × Option ForeignError
  SigningString : jwt.Token → String × Option ForeignError
  Sign : SigningMethod → String → KeyValue → String × Option ForeignError
  NewRandom : UUID × Option ForeignError
  NewSHA1 : UUID → List UInt8 → UUID

/-- Go `(*jwt.Token).SignedString` of jwt-go: build the signing string, sign
it with the token's method, join the two with a dot; on either failure the
string returned next to the error is empty. -/
def jwt.Token.SignedString (t : jwt.Token) (env : Collaborators) (key : KeyValue) :
    String × Option ForeignError :=
  let sstr := env.SigningString t
  match sstr.2 with
  | some e => ("", some e)
  | none =>
    let sig := env.Sign t.Method sstr.1 key
    match sig.2 with
    | some e => ("", some e)
    | none => (sstr.1 ++ "." ++ sig.1, none)

/-- A call made from `jwt.go` to code outside it, with its arguments. -/
inductive Call where
  | GetUser (userID : String)
  | validateScopeForUser (scope userID : String)
  | ParseECPrivateKeyFromPEM (pem : List UInt8)
  | SignedString (token : jwt.Token) (key : KeyValue)
  | NewRandom
  deriving DecidableEq

/-- How a run of `Token` ends: it returns its three results, or it panics. -/
inductive Outcome where
  | returned (access refresh : String) (err : Option GoError)
  | panicked
  deriving DecidableEq, Repr

/-- Go `(*JWTAccessGenerate).isEs`. -/
def JWTAccessGenerate.isEs (a : JWTAccessGenerate) : Bool :=
  strings.HasPrefix a.SignedMethod.Alg "ES"

/-- Go `(*JWTAccessGenerate).isRsOrPS`. -/
def JWTAccessGenerate.isRsOrPS (a : JWTAccessGenerate) : Bool :=
  let isRs := strings.HasPrefix a.SignedMethod.Alg "RS"
  let isPs := strings.HasPrefix a.SignedMethod.Alg "PS"
  isRs || isPs

/-- Go `(*JWTAccessGenerate).isHs`. -/
def JWTAccessGenerate.isHs (a : JWTAccessGenerate) : Bool :=
  strings.HasPrefix a.SignedMethod.Alg "HS"

/-- Go `[]byte(s)`. -/
def bytesOf (s : String) : List UInt8 := s.toUTF8.toList

/-- The refresh string of `jwt.go` line 102 and 103, for the random UUID
`space` and the access token `access`. -/
def refreshOf (env : Collaborators) (space : UUID) (access : String) : String :=
  let refresh := base64.EncodeToString (env.NewSHA1 space (bytesOf access)).Bytes
  strings.ToUpper (strings.TrimRight refresh "=")

/-- Lines 96 to 106 of `jwt.go`: sign, then derive the refresh string when
asked to. `tr` is the trace so far. -/
def signAndRefresh (env : Collaborators) (token : jwt.Token) (key : KeyValue)
    (isGenRefresh : Bool) (tr : List Call) : Outcome × List Call :=
  let signed := token.SignedString env key
  let tr := tr ++ [Call.SignedString token key]
  match signed.2 with
  | some e => (Outcome.returned signed.1 "" (some (GoError.foreign e)), tr)
  | none =>
    if isGenRefresh then
      match env.NewRandom.2 with
      | some _ => (Outcome.panicked, tr ++ [Call.NewRandom])
      | none =>
        (Outcome.returned signed.1 (refreshOf env env.NewRandom.1 signed.1) none,
          tr ++ [Call.NewRandom])
    else
      (Outcome.returned signed.1 "" none, tr)

/-- The claims built at lines 70 to 80 of `jwt.go`. -/
def buildClaims (data : GenerateBasic) (scope : String) (user : User) : JWTAccessClaims :=
  { StandardClaims :=
      { Audience := data.Client.ID
        Subject := data.UserID
        ExpiresAt := (data.TokenInfo.AccessCreateAt.Add data.TokenInfo.AccessExpiresIn).UnixSeconds }
    Scope := scope
    User := { Email := user.Email } }

/-- Lines 70 to 106 of `jwt.go`: build the claims and the token, pick the key
by the method's family, sign. The assertion `a.SignedKey.([]byte)` panics when
the key holds anything but a byte slice. -/
def issue (a : JWTAccessGenerate) (env : Collaborators) (data : GenerateBasic)
    (isGenRefresh : Bool) (scope : String) (user : User) (tr : List Call) :
    Outcome × List Call :=
  let claims := buildClaims data scope user
  let token := jwt.NewWithClaims a.SignedMethod claims
  if a.isEs then
    match a.SignedKey with
    | KeyValue.bytes pem =>
      let parsed := env.ParseECPrivateKeyFromPEM pem
      let tr := tr ++ [Call.ParseECPrivateKeyFromPEM pem]
      match parsed.2 with
      | some e => (Outcome.returned "" "" (some (GoError.foreign e)), tr)
      | none => signAndRefresh env token (KeyValue.ecdsaPrivateKey parsed.1) isGenRefresh tr
    | _ => (Outcome.panicked, tr)
  else if a.isRsOrPS then
    signAndRefresh env token a.SignedKey isGenRefresh tr
  else if a.isHs then
    signAndRefresh env token a.SignedKey isGenRefresh tr
  else
    (Outcome.returned "" "" (some (GoError.New "unsupported sign method")), tr)

/-- Go `(*JWTAccessGenerate).Token`: the outcome of the run and the calls it
made to its collaborators, in order. -/
def JWTAccessGenerate.Token (a : JWTAccessGenerate) (env : Collaborators)
    (data : GenerateBasic) (isGenRefresh : Bool) : Outcome × List Call :=
  let scope := data.Request.FormValue "scope"
  let fetched := a.UserStore.GetUser data.UserID
  let tr := [Call.GetUser data.UserID]
  match fetched.2 with
  | some e => (Outcome.returned "" "" (some (GoError.foreign e)), tr)
  | none =>
    if scope ≠ "" then
      let validated := env.validateScopeForUser scope data.UserID
      let tr := tr ++ [Call.validateScopeForUser scope data.UserID]
      match validated.2 with
      | some e => (Outcome.returned "" "" (some (GoError.foreign e)), tr)
      | none => issue a env data isGenRefresh validated.1 fetched.1 tr
    else
      issue a env data isGenRefresh scope fetched.1 tr

/-- The scope the grant asks for, `data.Request.FormValue("scope")`. -/
def requestedScope (data : GenerateBasic) : String := data.Request.FormValue "scope"

/-- The characters a refresh string may hold: `A`..`Z`, `0`..`9`, `-`, `_`. -/
def isRefreshChar (c : Char) : Bool :=
  c.isUpper || c.isDigit || c == '-' || c == '_'

/-! ## Sample collaborators and grants -/

/-- A store that knows the one user `u1`. -/
def sampleStore : UserStore :=
  { GetUser := fun id =>
      if id = "u1" then ({ ID := "u1", Email := "a@example.com" }, none)
      else ({ ID := "", Email := "" }, some { msg := "record not found" }) }

/-- A fixed UUID. -/
def sampleUUID : UUID :=
  { bytes := [255, 254, 253, 0, 1, 2, 3, 4, 249, 250, 251, 252, 253, 254, 255, 255]
    size := rfl }

/-- Collaborators that reject the scope `admin`, reject the empty PEM,
serialise every token to `h.p`, sign with a byte-slice or elliptic-curve key
to `s` and refuse any other key, and draw `sampleUUID`. -/
def sampleEnv : Collaborators :=
  { validateScopeForUser := fun scope _ =>
      if scope = "admin" then ("", some { msg := "scope not allowed" }) else (scope, none)
    ParseECPrivateKeyFromPEM := fun pem =>
      if pem = [] then ({ D := 0 }, some { msg := "invalid key" }) else ({ D := 1 }, none)
    SigningString := fun _ => ("h.p", none)
    Sign := fun _ _ key =>
      match key with
      | KeyValue.bytes _ => ("s", none)
      | KeyValue.ecdsaPrivateKey _ => ("s", none)
      | _ => ("", some { msg := "key is of invalid type" })
    NewRandom := (sampleUUID, none)
    NewSHA1 := fun space _ => space }

/-- A grant for user `userID` and client `c1` asking for `scope`, created at
1700000000 seconds after the epoch with a lifetime of 3600 seconds. -/
def sampleGrant (userID scope : String) : GenerateBasic :=
  { Client := { ID := "c1" }
    UserID := userID
    CreateAt := Time.Unix 1700000000
    TokenInfo := { AccessCreateAt := Time.Unix 1700000000, AccessExpiresIn := 3600000000000 }
    Request := { FormValue := fun k => if k = "scope" then scope else "" } }

/-- A generator over `sampleStore` with the given key and algorithm name. -/
def sampleGenerate (key : KeyValue) (alg : String) : JWTAccessGenerate :=
  NewJWTAccessGenerate key { Alg := alg } sampleStore

/-- A grant for user `u1` whose access token is created in the last second a
`time.Time` can hold, with a lifetime of one second. -/
def lastSecondGrant : GenerateBasic :=
  { Client := { ID := "c1" }
    UserID := "u1"
    CreateAt := Time.Unix 9223371974719179007
    TokenInfo := { AccessCreateAt := Time.Unix 9223371974719179007,
                   AccessExpiresIn := 1000000000 }
    Request := { FormValue := fun _ => "" } }

/-- The Unix-seconds value of creation time plus lifetime, in unbounded
arithmetic: the whole seconds of the instant `AccessExpiresIn` nanoseconds
after `AccessCreateAt`. -/
def specExpiresAt (ti : TokenInfo) : Int :=
  (ti.AccessCreateAt.instant + ti.AccessExpiresIn) / 1000000000

/-- A claims value with the given expiry and nothing else set. -/
def claimsExpiring (e : Int) : JWTAccessClaims :=
  { Scope := "", User := { Email := "" }, StandardClaims := { ExpiresAt := e } }

/-! ## Expiry check -/

theorem wrap64_of_isInt64 {x : Int} (h : isInt64 x) : wrap64 x = x := by
  unfold isInt64 minInt64 maxInt64 at h
  unfold wrap64
  omega

theorem Before_iff (t u : Time) :
    t.Before u = true ↔ t.sec < u.sec ∨ (t.sec = u.sec ∧ t.nsec < u.nsec) := by
  simp [Time.Before]

theorem Unix_sec_of_fits {e : Int} (hlo : minInt64 ≤ e) (hhi : e + unixToInternal ≤ maxInt64) :
    (Time.Unix e).sec = e + unixToInternal := by
  have hu : unixToInternal = 62135596800 := by decide
  unfold Time.Unix
  apply wrap64_of_isInt64
  unfold isInt64
  unfold minInt64 at *
  omega

/-- C1 (counterexample): with `ExpiresAt` the largest `int64` and the clock at
1700000000 seconds after the epoch, the expiry instant lies strictly after
the clock reading, yet `Valid` returns the invalid-access-token error instead
of `nil`: `time.Unix` adds `unixToInternal` in `int64` and wraps. -/
theorem C1_counterexample :
    isInt64 9223372036854775807 ∧ (Time.Unix 1700000000).wf ∧
    (Time.Unix 1700000000).instant < epochInstant 9223372036854775807 ∧
    (claimsExpiring 9223372036854775807).Valid (Time.Unix 1700000000) =
      some GoError.ErrInvalidAccessToken ∧
    (claimsExpiring 9223372036854775807).Valid (Time.Unix 1700000000) ≠ none := by
  decide

/-- C1 (amended): whenever `ExpiresAt` is an `int64` for which
`ExpiresAt + unixToInternal` still fits `int64`, `Valid` returns
`ErrInvalidAccessToken` if the instant `ExpiresAt` seconds after the epoch is
strictly before the clock reading, and `nil` if it is strictly after; and two
claims values with the same `ExpiresAt` get the same answer at any clock
reading, whatever their other fields. -/
theorem C1_Valid_strict (a : JWTAccessClaims) (now : Time)
    (hlo : minInt64 ≤ a.StandardClaims.ExpiresAt)
    (hhi : a.StandardClaims.ExpiresAt + unixToInternal ≤ maxInt64)
    (hnow : now.wf) :
    (epochInstant a.StandardClaims.ExpiresAt < now.instant →
        a.Valid now = some GoError.ErrInvalidAccessToken) ∧
    (now.instant < epochInstant a.StandardClaims.ExpiresAt → a.Valid now = none) ∧
    (∀ b : JWTAccessClaims, b.StandardClaims.ExpiresAt = a.StandardClaims.ExpiresAt →
        ∀ t : Time, b.Valid t = a.Valid t) := by
  have hsec := Unix_sec_of_fits hlo hhi
  have hns : (Time.Unix a.StandardClaims.ExpiresAt).nsec = 0 := rfl
  obtain ⟨_, hn⟩ := hnow
  refine ⟨?_, ?_, ?_⟩
  · intro hlt
    have hb : (Time.Unix a.StandardClaims.ExpiresAt).Before now = true := by
      rw [Before_iff, hsec, hns]
      unfold epochInstant Time.instant at hlt
      omega
    simp [JWTAccessClaims.Valid, hb]
  · intro hlt
    have hb : ¬ (Time.Unix a.StandardClaims.ExpiresAt).Before now = true := by
      rw [Before_iff, hsec, hns]
      unfold epochInstant Time.instant at hlt
      omega
    simp [JWTAccessClaims.Valid, hb]
  · intro b hb t
    simp [JWTAccessClaims.Valid, hb]

/-- Witness for `C1_Valid_strict`: expiry 1700000000 against the clock one
second later. -/
theorem C1_Valid_strict_witness :
    (claimsExpiring 1700000000).Valid (Time.Unix 1700000001) =
      some GoError.ErrInvalidAccessToken :=
  (C1_Valid_strict (claimsExpiring 1700000000) (Time.Unix 1700000001)
    (by decide) (by decide) (by decide)).1 (by decide)

/-- C2 (counterexample): expiry 1700000000 against a clock reading of exactly
1700000000 seconds and 0 nanoseconds after the epoch: `Valid` returns `nil`,
not the invalid-access-token error. -/
theorem C2_counterexample :
    (Time.Unix (claimsExpiring 1700000000).StandardClaims.ExpiresAt).Equal
        (Time.Unix 1700000000) = true ∧
    (claimsExpiring 1700000000).Valid (Time.Unix 1700000000) ≠
      some GoError.ErrInvalidAccessToken := by
  decide

/-- C2 (amended): for every claims value and every clock reading that
`Time.Equal` reports equal to `time.Unix(ExpiresAt, 0)`, `Valid` returns
`nil`: the claims are still valid at the expiry instant itself. -/
theorem C2_Valid_at_expiry (a : JWTAccessClaims) (now : Time)
    (heq : (Time.Unix a.StandardClaims.ExpiresAt).Equal now = true) :
    a.Valid now = none := by
  simp only [Time.Equal, Bool.and_eq_true, decide_eq_true_eq] at heq
  have hb : ¬ (Time.Unix a.StandardClaims.ExpiresAt).Before now = true := by
    rw [Before_iff]
    omega
  simp [JWTAccessClaims.Valid, hb]

/-- Witness for `C2_Valid_at_expiry`. -/
theorem C2_Valid_at_expiry_witness :
    (claimsExpiring 1700000000).Valid (Time.Unix 1700000000) = none :=
  C2_Valid_at_expiry (claimsExpiring 1700000000) (Time.Unix 1700000000) (by decide)

/-! ## The refresh string -/

theorem encodeAt_ne_padding (i : Nat) : base64.encodeAt i ≠ base64.StdPadding := by
  have h : ∀ j : Fin 64, base64.encodeURL.getD j.val 'A' ≠ base64.StdPadding := by decide
  exact h ⟨i % 64, Nat.mod_lt _ (by decide)⟩

theorem toUpper_encodeAt (i : Nat) :
    isRefreshChar (Char.toUpper (base64.encodeAt i)) = true ∧
    Char.toUpper (base64.encodeAt i) ≠ '=' ∧
    (Char.toUpper (base64.encodeAt i)).isLower = false := by
  have h : ∀ j : Fin 64,
      isRefreshChar (Char.toUpper (base64.encodeURL.getD j.val 'A')) = true ∧
      Char.toUpper (base64.encodeURL.getD j.val 'A') ≠ '=' ∧
      (Char.toUpper (base64.encodeURL.getD j.val 'A')).isLower = false := by decide
  exact h ⟨i % 64, Nat.mod_lt _ (by decide)⟩

/-- The encoding of any byte list is a run of alphabet characters followed by
the padding: `(4 * n + 2) / 3` characters and `(3 - n % 3) % 3` pads for `n`
bytes. -/
theorem encodeBytes_shape (l : List UInt8) :
    ∃ is : List Nat, is.length = (4 * l.length + 2) / 3 ∧
      base64.encodeBytes l =
        is.map base64.encodeAt ++ List.replicate ((3 - l.length % 3) % 3) base64.StdPadding := by
  induction l using base64.encodeBytes.induct with
  | case1 => exact ⟨[], rfl, rfl⟩
  | case2 b0 => exact ⟨[_, _], by simp, rfl⟩
  | case3 b0 b1 => exact ⟨[_, _, _], by simp, rfl⟩
  | case4 b0 b1 b2 rest ih =>
    obtain ⟨is, hlen, henc⟩ := ih
    refine ⟨((b0.toNat <<< 16 ||| b1.toNat <<< 8 ||| b2.toNat) >>> 18 &&& 0x3F) ::
      ((b0.toNat <<< 16 ||| b1.toNat <<< 8 ||| b2.toNat) >>> 12 &&& 0x3F) ::
      ((b0.toNat <<< 16 ||| b1.toNat <<< 8 ||| b2.toNat) >>> 6 &&& 0x3F) ::
      ((b0.toNat <<< 16 ||| b1.toNat <<< 8 ||| b2.toNat) &&& 0x3F) :: is, ?_, ?_⟩
    · simp only [List.length_cons, hlen]
      omega
    · simp only [base64.encodeBytes, henc, List.map_cons, List.cons_append, List.length_cons]
      have hm : (rest.length + 1 + 1 + 1) % 3 = rest.length % 3 := by omega
      rw [hm]

theorem rdropWhile_append_replicate {α : Type} (p : α → Bool) (l : List α) (a : α) (k : Nat)
    (ha : p a = true) :
    (l ++ List.replicate k a).rdropWhile p = l.rdropWhile p := by
  induction k with
  | zero => simp
  | succ k ih =>
    rw [List.replicate_succ', ← List.append_assoc, List.rdropWhile_concat]
    simp [ha, ih]

theorem rdropWhile_of_all_not {α : Type} (p : α → Bool) (l : List α)
    (h : ∀ x ∈ l, p x = false) : l.rdropWhile p = l := by
  rw [List.rdropWhile_eq_self_iff]
  intro hl
  simp [h _ (List.getLast_mem hl)]

/-- The refresh string is the upper-cased alphabet characters of the encoding
of the 16 bytes of the derived UUID: 22 of them, the padding trimmed off. -/
theorem refreshOf_shape (env : Collaborators) (space : UUID) (access : String) :
    ∃ is : List Nat, is.length = 22 ∧
      (refreshOf env space access).data = is.map (fun i => Char.toUpper (base64.encodeAt i)) := by
  obtain ⟨is, hlen, henc⟩ := encodeBytes_shape (env.NewSHA1 space (bytesOf access)).Bytes
  have hsize : (env.NewSHA1 space (bytesOf access)).Bytes.length = 16 :=
    (env.NewSHA1 space (bytesOf access)).size
  rw [hsize] at hlen henc
  refine ⟨is, hlen, ?_⟩
  have hpad : (fun c : Char => decide (c ∈ "=".data)) base64.StdPadding = true := by decide
  have hbody : ∀ x ∈ is.map base64.encodeAt,
      (fun c : Char => decide (c ∈ "=".data)) x = false := by
    intro x hx
    obtain ⟨i, _, rfl⟩ := List.mem_map.1 hx
    have := encodeAt_ne_padding i
    simpa [base64.StdPadding] using this
  have htrim : List.rdropWhile (fun c : Char => decide (c ∈ "=".data))
      (base64.encodeBytes (env.NewSHA1 space (bytesOf access)).Bytes) =
        is.map base64.encodeAt := by
    rw [henc, rdropWhile_append_replicate (fun c : Char => decide (c ∈ "=".data)) _ _ _ hpad,
      rdropWhile_of_all_not (fun c : Char => decide (c ∈ "=".data)) _ hbody]
  show List.map Char.toUpper (List.rdropWhile (fun c : Char => decide (c ∈ "=".data))
      (base64.encodeBytes (env.NewSHA1 space (bytesOf access)).Bytes)) = _
  rw [htrim, List.map_map]
  rfl

/-! ## Issuance: lookup and scope validation -/

theorem signAndRefresh_validate_mem (env : Collaborators) (token : jwt.Token) (key : KeyValue)
    (isGenRefresh : Bool) (tr : List Call) (s u : String) :
    Call.validateScopeForUser s u ∈ (signAndRefresh env token key isGenRefresh tr).2 ↔
      Call.validateScopeForUser s u ∈ tr := by
  cases hs : (token.SignedString env key).2 <;> cases isGenRefresh <;>
    cases hr : env.NewRandom.2 <;> simp [signAndRefresh, hs, hr]

theorem issue_validate_mem (a : JWTAccessGenerate) (env : Collaborators) (data : GenerateBasic)
    (isGenRefresh : Bool) (scope : String) (user : User) (tr : List Call) (s u : String) :
    Call.validateScopeForUser s u ∈ (issue a env data isGenRefresh scope user tr).2 ↔
      Call.validateScopeForUser s u ∈ tr := by
  unfold issue
  cases a.isEs <;> cases a.isRsOrPS <;> cases a.isHs <;> cases hk : a.SignedKey <;>
    simp [signAndRefresh_validate_mem]
  all_goals
    rename_i pem
    cases hp : (env.ParseECPrivateKeyFromPEM pem).2 <;> simp [hp, signAndRefresh_validate_mem]

/-- C5: when `GetUser` fails on the grant's user identifier, `Token` returns
the lookup's error itself with empty access and refresh strings, and the only
collaborator call it has made is that lookup: neither the scope validator nor
the signer is reached, whatever the scope, the signing method, the key and the
refresh flag. -/
theorem C5_lookup_failure (a : JWTAccessGenerate) (env : Collaborators) (data : GenerateBasic)
    (isGenRefresh : Bool) (e : ForeignError)
    (hfail : (a.UserStore.GetUser data.UserID).2 = some e) :
    a.Token env data isGenRefresh =
      (Outcome.returned "" "" (some (GoError.foreign e)), [Call.GetUser data.UserID]) := by
  simp [JWTAccessGenerate.Token, hfail]

/-- Witness for `C5_lookup_failure`: the unknown user `u2`, asking for scope
`admin` with the refresh flag set. -/
theorem C5_lookup_failure_witness :
    (sampleGenerate (KeyValue.bytes [1]) "HS256").Token sampleEnv (sampleGrant "u2" "admin") true =
      (Outcome.returned "" "" (some (GoError.foreign { msg := "record not found" })),
        [Call.GetUser "u2"]) :=
  C5_lookup_failure (sampleGenerate (KeyValue.bytes [1]) "HS256") sampleEnv
    (sampleGrant "u2" "admin") true { msg := "record not found" } (by decide)

/-- C6: for a grant whose lookup succeeds, (1) if the requested scope is
non-empty and `validateScopeForUser`, called with that scope and the grant's
user identifier, fails, then `Token` returns the validator's error with empty
access and refresh strings, having called the lookup and the validator and
nothing else (so never the signer); (2) the validator is called if and only if
the requested scope is non-empty; (3) every call to it carries the requested
scope and the grant's user identifier. -/
theorem C6_scope_validation (a : JWTAccessGenerate) (env : Collaborators) (data : GenerateBasic)
    (isGenRefresh : Bool) (hok : (a.UserStore.GetUser data.UserID).2 = none) :
    (∀ e : ForeignError, requestedScope data ≠ "" →
        (env.validateScopeForUser (requestedScope data) data.UserID).2 = some e →
        a.Token env data isGenRefresh =
          (Outcome.returned "" "" (some (GoError.foreign e)),
            [Call.GetUser data.UserID,
              Call.validateScopeForUser (requestedScope data) data.UserID])) ∧
    ((∃ s u, Call.validateScopeForUser s u ∈ (a.Token env data isGenRefresh).2) ↔
        requestedScope data ≠ "") ∧
    (∀ s u, Call.validateScopeForUser s u ∈ (a.Token env data isGenRefresh).2 →
        s = requestedScope data ∧ u = data.UserID) := by
  refine ⟨?_, ?_, ?_⟩
  · intro e hne hrej
    unfold requestedScope at *
    simp [JWTAccessGenerate.Token, hok, hne, hrej]
  · unfold requestedScope
    by_cases hs : data.Request.FormValue "scope" = ""
    · simp [JWTAccessGenerate.Token, hok, hs, issue_validate_mem]
    · simp only [JWTAccessGenerate.Token, hok, hs, ne_eq, not_false_eq_true, if_true]
      constructor
      · intro _; trivial
      · intro _
        refine ⟨data.Request.FormValue "scope", data.UserID, ?_⟩
        split
        · simp
        · simp [issue_validate_mem]
  · intro s u hmem
    unfold requestedScope
    by_cases hs : data.Request.FormValue "scope" = ""
    · simp [JWTAccessGenerate.Token, hok, hs, issue_validate_mem] at hmem
    · simp only [JWTAccessGenerate.Token, hok, hs, ne_eq, not_false_eq_true, if_true] at hmem
      split at hmem
      · simpa using hmem
      · simpa [issue_validate_mem] using hmem

/-- Witness for `C6_scope_validation`: the known user `u1` asking for the
scope `admin`, which the validator rejects. -/
theorem C6_scope_validation_witness :
    (sampleGenerate (KeyValue.bytes [1]) "HS256").Token sampleEnv (sampleGrant "u1" "admin") true =
      (Outcome.returned "" "" (some (GoError.foreign { msg := "scope not allowed" })),
        [Call.GetUser "u1", Call.validateScopeForUser "admin" "u1"]) :=
  (C6_scope_validation (sampleGenerate (KeyValue.bytes [1]) "HS256") sampleEnv
    (sampleGrant "u1" "admin") true (by decide)).1 { msg := "scope not allowed" }
    (by decide) (by decide)

/-! ## Issuance: signing -/

theorem signAndRefresh_sign_mem (env : Collaborators) (token : jwt.Token) (key : KeyValue)
    (isGenRefresh : Bool) (tr : List Call) (t : jwt.Token) (k : KeyValue) :
    Call.SignedString t k ∈ (signAndRefresh env token key isGenRefresh tr).2 ↔
      Call.SignedString t k ∈ tr ∨ (t = token ∧ k = key) := by
  cases hs : (token.SignedString env key).2 <;> cases isGenRefresh <;>
    cases hr : env.NewRandom.2 <;> simp [signAndRefresh, hs, hr]

theorem signAndRefresh_err (env : Collaborators) (token : jwt.Token) (key : KeyValue)
    (isGenRefresh : Bool) (tr : List Call) (acc ref : String) (e : GoError)
    (h : (signAndRefresh env token key isGenRefresh tr).1 = Outcome.returned acc ref (some e)) :
    ref = "" ∧ ∃ fe, (token.SignedString env key).2 = some fe ∧
      (token.SignedString env key).1 = acc ∧ e = GoError.foreign fe := by
  cases hs : (token.SignedString env key).2 <;> cases isGenRefresh <;>
    cases hr : env.NewRandom.2 <;> simp [signAndRefresh, hs, hr] at h
  all_goals
    obtain ⟨h1, h2, h3⟩ := h
    exact ⟨h2.symm, _, rfl, h1, h3.symm⟩

theorem signAndRefresh_ok (env : Collaborators) (token : jwt.Token) (key : KeyValue)
    (isGenRefresh : Bool) (tr : List Call) (acc ref : String)
    (h : (signAndRefresh env token key isGenRefresh tr).1 = Outcome.returned acc ref none) :
    (token.SignedString env key).2 = none ∧ (token.SignedString env key).1 = acc ∧
      ref = if isGenRefresh then refreshOf env env.NewRandom.1 acc else "" := by
  cases hs : (token.SignedString env key).2 <;> cases isGenRefresh <;>
    cases hr : env.NewRandom.2 <;> simp [signAndRefresh, hs, hr] at h
  all_goals
    obtain ⟨h1, h2⟩ := h
    subst h1
    simp [h2]

/-- The five ways `issue` can go, by method family and key. -/
theorem issue_cases (a : JWTAccessGenerate) (env : Collaborators) (data : GenerateBasic)
    (isGenRefresh : Bool) (scope : String) (user : User) (tr : List Call) :
    (a.isEs = true ∧ (∀ pem, a.SignedKey ≠ KeyValue.bytes pem) ∧
      issue a env data isGenRefresh scope user tr = (Outcome.panicked, tr)) ∨
    (a.isEs = true ∧ ∃ pem fe, a.SignedKey = KeyValue.bytes pem ∧
      (env.ParseECPrivateKeyFromPEM pem).2 = some fe ∧
      issue a env data isGenRefresh scope user tr =
        (Outcome.returned "" "" (some (GoError.foreign fe)),
          tr ++ [Call.ParseECPrivateKeyFromPEM pem])) ∨
    (a.isEs = true ∧ ∃ pem, a.SignedKey = KeyValue.bytes pem ∧
      (env.ParseECPrivateKeyFromPEM pem).2 = none ∧
      issue a env data isGenRefresh scope user tr =
        signAndRefresh env (jwt.NewWithClaims a.SignedMethod (buildClaims data scope user))
          (KeyValue.ecdsaPrivateKey (env.ParseECPrivateKeyFromPEM pem).1) isGenRefresh
          (tr ++ [Call.ParseECPrivateKeyFromPEM pem])) ∨
    (a.isEs = false ∧ (a.isRsOrPS = true ∨ a.isHs = true) ∧
      issue a env data isGenRefresh scope user tr =
        signAndRefresh env (jwt.NewWithClaims a.SignedMethod (buildClaims data scope user))
          a.SignedKey isGenRefresh tr) ∨
    (a.isEs = false ∧ a.isRsOrPS = false ∧ a.isHs = false ∧
      issue a env data isGenRefresh scope user tr =
        (Outcome.returned "" "" (some (GoError.New "unsupported sign method")), tr)) := by
  unfold issue
  cases he : a.isEs
  · cases hr : a.isRsOrPS
    · cases hh : a.isHs <;> simp
    · simp
  · cases hk : a.SignedKey
    case bytes pem =>
      cases hp : (env.ParseECPrivateKeyFromPEM pem).2 <;> simp [hp]
    all_goals simp

theorem issue_sign_mem (a : JWTAccessGenerate) (env : Collaborators) (data : GenerateBasic)
    (isGenRefresh : Bool) (scope : String) (user : User) (tr : List Call)
    (t : jwt.Token) (k : KeyValue)
    (h : Call.SignedString t k ∈ (issue a env data isGenRefresh scope user tr).2) :
    Call.SignedString t k ∈ tr ∨
      t = jwt.NewWithClaims a.SignedMethod (buildClaims data scope user) := by
  rcases issue_cases a env data isGenRefresh scope user tr with
    ⟨_, _, hi⟩ | ⟨_, pem, fe, _, _, hi⟩ | ⟨_, pem, _, _, hi⟩ | ⟨_, _, hi⟩ | ⟨_, _, _, hi⟩ <;>
    rw [hi] at h
  · exact Or.inl h
  · simp at h; exact Or.inl h
  · rw [signAndRefresh_sign_mem] at h
    simp at h
    tauto
  · rw [signAndRefresh_sign_mem] at h
    tauto
  · exact Or.inl h

theorem issue_err (a : JWTAccessGenerate) (env : Collaborators) (data : GenerateBasic)
    (isGenRefresh : Bool) (scope : String) (user : User) (tr : List Call)
    (acc ref : String) (e : GoError)
    (h : (issue a env data isGenRefresh scope user tr).1 = Outcome.returned acc ref (some e)) :
    ref = "" ∧ (acc = "" ∨ ∃ (t : jwt.Token) (k : KeyValue) (fe : ForeignError),
      (t.SignedString env k).2 = some fe ∧
      (t.SignedString env k).1 = acc ∧ e = GoError.foreign fe) := by
  rcases issue_cases a env data isGenRefresh scope user tr with
    ⟨_, _, hi⟩ | ⟨_, pem, fe, _, _, hi⟩ | ⟨_, pem, _, _, hi⟩ | ⟨_, _, hi⟩ | ⟨_, _, _, hi⟩ <;>
    rw [hi] at h
  · simp at h
  · simp at h
    exact ⟨h.2.1.symm, Or.inl h.1.symm⟩
  · obtain ⟨h1, fe, h2, h3, h4⟩ := signAndRefresh_err _ _ _ _ _ _ _ _ h
    exact ⟨h1, Or.inr ⟨_, _, fe, h2, h3, h4⟩⟩
  · obtain ⟨h1, fe, h2, h3, h4⟩ := signAndRefresh_err _ _ _ _ _ _ _ _ h
    exact ⟨h1, Or.inr ⟨_, _, fe, h2, h3, h4⟩⟩
  · simp at h
    exact ⟨h.2.1.symm, Or.inl h.1.symm⟩

theorem issue_ok (a : JWTAccessGenerate) (env : Collaborators) (data : GenerateBasic)
    (isGenRefresh : Bool) (scope : String) (user : User) (tr : List Call)
    (acc ref : String)
    (h : (issue a env data isGenRefresh scope user tr).1 = Outcome.returned acc ref none) :
    (ref = if isGenRefresh then refreshOf env env.NewRandom.1 acc else "") ∧
    ∃ key, Call.SignedString (jwt.NewWithClaims a.SignedMethod (buildClaims data scope user)) key
        ∈ (issue a env data isGenRefresh scope user tr).2 ∧
      (jwt.NewWithClaims a.SignedMethod (buildClaims data scope user)).SignedString env key =
        (acc, none) := by
  rcases issue_cases a env data isGenRefresh scope user tr with
    ⟨_, _, hi⟩ | ⟨_, pem, fe, _, _, hi⟩ | ⟨_, pem, _, _, hi⟩ | ⟨_, _, hi⟩ | ⟨_, _, _, hi⟩ <;>
    rw [hi] at h ⊢
  · simp at h
  · simp at h
  · obtain ⟨h1, h2, h3⟩ := signAndRefresh_ok _ _ _ _ _ _ _ h
    exact ⟨h3, _, (signAndRefresh_sign_mem _ _ _ _ _ _ _).2 (Or.inr ⟨rfl, rfl⟩),
      Prod.ext h2 h1⟩
  · obtain ⟨h1, h2, h3⟩ := signAndRefresh_ok _ _ _ _ _ _ _ h
    exact ⟨h3, _, (signAndRefresh_sign_mem _ _ _ _ _ _ _).2 (Or.inr ⟨rfl, rfl⟩),
      Prod.ext h2 h1⟩
  · simp at h

/-- The four ways `Token` can go before it reaches `issue`. -/
theorem Token_cases (a : JWTAccessGenerate) (env : Collaborators) (data : GenerateBasic)
    (isGenRefresh : Bool) :
    (∃ fe, (a.UserStore.GetUser data.UserID).2 = some fe ∧
      a.Token env data isGenRefresh =
        (Outcome.returned "" "" (some (GoError.foreign fe)), [Call.GetUser data.UserID])) ∨
    ((a.UserStore.GetUser data.UserID).2 = none ∧ requestedScope data ≠ "" ∧
      ∃ fe, (env.validateScopeForUser (requestedScope data) data.UserID).2 = some fe ∧
      a.Token env data isGenRefresh =
        (Outcome.returned "" "" (some (GoError.foreign fe)),
          [Call.GetUser data.UserID,
            Call.validateScopeForUser (requestedScope data) data.UserID])) ∨
    ((a.UserStore.GetUser data.UserID).2 = none ∧ requestedScope data ≠ "" ∧
      (env.validateScopeForUser (requestedScope data) data.UserID).2 = none ∧
      a.Token env data isGenRefresh =
        issue a env data isGenRefresh
          (env.validateScopeForUser (requestedScope data) data.UserID).1
          (a.UserStore.GetUser data.UserID).1
          [Call.GetUser data.UserID,
            Call.validateScopeForUser (requestedScope data) data.UserID]) ∨
    ((a.UserStore.GetUser data.UserID).2 = none ∧ requestedScope data = "" ∧
      a.Token env data isGenRefresh =
        issue a env data isGenRefresh "" (a.UserStore.GetUser data.UserID).1
          [Call.GetUser data.UserID]) := by
  unfold JWTAccessGenerate.Token requestedScope
  cases hf : (a.UserStore.GetUser data.UserID).2
  · by_cases hs : data.Request.FormValue "scope" = ""
    · simp [hf, hs]
    · cases hv : (env.validateScopeForUser (data.Request.FormValue "scope") data.UserID).2 <;>
        simp [hf, hs, hv]
  · simp [hf]

theorem issue_err_New (a : JWTAccessGenerate) (env : Collaborators) (data : GenerateBasic)
    (isGenRefresh : Bool) (scope : String) (user : User) (tr : List Call)
    (acc ref text : String)
    (h : (issue a env data isGenRefresh scope user tr).1 =
      Outcome.returned acc ref (some (GoError.New text))) :
    a.isEs = false ∧ a.isRsOrPS = false ∧ a.isHs = false := by
  rcases issue_cases a env data isGenRefresh scope user tr with
    ⟨_, _, hi⟩ | ⟨_, pem, fe, _, _, hi⟩ | ⟨_, pem, _, _, hi⟩ | ⟨_, _, hi⟩ | ⟨h1, h2, h3, hi⟩ <;>
    rw [hi] at h
  · simp at h
  · simp at h
  · obtain ⟨_, fe, _, _, h4⟩ := signAndRefresh_err _ _ _ _ _ _ _ _ h
    simp at h4
  · obtain ⟨_, fe, _, _, h4⟩ := signAndRefresh_err _ _ _ _ _ _ _ _ h
    simp at h4
  · exact ⟨h1, h2, h3⟩

theorem Token_ok (a : JWTAccessGenerate) (env : Collaborators) (data : GenerateBasic)
    (isGenRefresh : Bool) (acc ref : String)
    (h : (a.Token env data isGenRefresh).1 = Outcome.returned acc ref none) :
    ∃ scope tr, a.Token env data isGenRefresh =
        issue a env data isGenRefresh scope (a.UserStore.GetUser data.UserID).1 tr ∧
      (scope = if requestedScope data = "" then ""
        else (env.validateScopeForUser (requestedScope data) data.UserID).1) ∧
      (∀ t k, Call.SignedString t k ∉ tr) := by
  rcases Token_cases a env data isGenRefresh with
    ⟨fe, _, ht⟩ | ⟨_, _, fe, _, ht⟩ | ⟨_, hs, _, ht⟩ | ⟨_, hs, ht⟩
  · rw [ht] at h; simp at h
  · rw [ht] at h; simp at h
  · exact ⟨_, _, ht, by simp [hs], by simp⟩
  · exact ⟨_, _, ht, by simp [hs], by simp⟩

theorem SignedString_err (t : jwt.Token) (env : Collaborators) (k : KeyValue)
    (fe : ForeignError) (h : (t.SignedString env k).2 = some fe) :
    (t.SignedString env k).1 = "" := by
  unfold jwt.Token.SignedString at h ⊢
  cases hs : (env.SigningString t).2
  · cases hg : (env.Sign t.Method (env.SigningString t).1 k).2
    · simp [hs, hg] at h
    · simp [hs, hg]
  · simp [hs]

theorem signAndRefresh_fail (env : Collaborators) (token : jwt.Token) (key : KeyValue)
    (isGenRefresh : Bool) (tr : List Call) (fe : ForeignError)
    (h : (token.SignedString env key).2 = some fe) :
    (signAndRefresh env token key isGenRefresh tr).1 =
      Outcome.returned "" "" (some (GoError.foreign fe)) := by
  have h1 := SignedString_err token env key fe h
  simp [signAndRefresh, h, h1]

theorem issue_sign_fail (a : JWTAccessGenerate) (env : Collaborators) (data : GenerateBasic)
    (isGenRefresh : Bool) (scope : String) (user : User) (tr : List Call)
    (t : jwt.Token) (k : KeyValue) (fe : ForeignError)
    (htr : ∀ t k, Call.SignedString t k ∉ tr)
    (hmem : Call.SignedString t k ∈ (issue a env data isGenRefresh scope user tr).2)
    (hfail : (t.SignedString env k).2 = some fe) :
    (issue a env data isGenRefresh scope user tr).1 =
      Outcome.returned "" "" (some (GoError.foreign fe)) := by
  rcases issue_cases a env data isGenRefresh scope user tr with
    ⟨_, _, hi⟩ | ⟨_, pem, fe2, _, _, hi⟩ | ⟨_, pem, _, _, hi⟩ | ⟨_, _, hi⟩ | ⟨_, _, _, hi⟩ <;>
    rw [hi] at hmem ⊢
  · exact absurd hmem (htr t k)
  · simp at hmem
    exact absurd hmem (htr t k)
  · rw [signAndRefresh_sign_mem] at hmem
    simp at hmem
    rcases hmem with hmem | ⟨rfl, rfl⟩
    · exact absurd hmem (htr t k)
    · exact signAndRefresh_fail _ _ _ _ _ _ hfail
  · rw [signAndRefresh_sign_mem] at hmem
    rcases hmem with hmem | ⟨rfl, rfl⟩
    · exact absurd hmem (htr t k)
    · exact signAndRefresh_fail _ _ _ _ _ _ hfail
  · exact absurd hmem (htr t k)

/-! ## Expiry arithmetic -/

theorem tmod_bounds (d : Int) :
    -1000000000 < Int.tmod d 1000000000 ∧ Int.tmod d 1000000000 < 1000000000 := by
  constructor
  · cases d with
    | ofNat m =>
      exact lt_of_lt_of_le (by decide) (Int.tmod_nonneg 1000000000 (Int.ofNat_nonneg m))
    | negSucc m =>
      have h : Int.tmod (Int.negSucc m) 1000000000 = -((m + 1 : Nat) % 1000000000 : Nat) := rfl
      rw [h]
      omega
  · exact Int.tmod_lt_of_pos d (by decide)

theorem addSec_of_fits (t : Time) (d : Int) (h : isInt64 (t.sec + d)) :
    t.addSec d = { t with sec := t.sec + d } := by
  unfold Time.addSec
  rw [wrap64_of_isInt64 h]
  have hc : decide (t.sec + d > t.sec) = decide (d > 0) := by
    rw [decide_eq_decide]
    omega
  simp [hc]

theorem addSec_UnixSeconds (t : Time) (k : Int) (h1 : isInt64 (t.sec + k))
    (h2 : isInt64 (t.sec + k + internalToUnix)) :
    (t.addSec k).UnixSeconds = t.sec + k + internalToUnix := by
  rw [addSec_of_fits t k h1]
  exact wrap64_of_isInt64 h2

/-- Within the range of `time.Time`, `Add` followed by `Unix()` is the whole
seconds of the sum of instant and duration. -/
theorem Add_UnixSeconds (t : Time) (d : Int) (hwf : t.wf)
    (hlo : minInt64 ≤ (t.instant + d) / 1000000000)
    (hhi : (t.instant + d) / 1000000000 + unixToInternal ≤ maxInt64) :
    (t.Add d).UnixSeconds = (t.instant + d) / 1000000000 := by
  have hu : unixToInternal = 62135596800 := by decide
  obtain ⟨_, hn⟩ := hwf
  obtain ⟨hr1, hr2⟩ := tmod_bounds d
  have hd := Int.tdiv_add_tmod d 1000000000
  unfold Time.instant at hlo hhi ⊢
  unfold minInt64 at hlo
  unfold maxInt64 at hhi
  simp only [Time.Add]
  generalize Int.tdiv d 1000000000 = q at *
  generalize Int.tmod d 1000000000 = r at *
  have hfits : ∀ k : Int,
      k = ((t.sec - unixToInternal) * 1000000000 + (t.nsec : Int) + d) / 1000000000
        + unixToInternal - t.sec →
      isInt64 (t.sec + k) ∧ isInt64 (t.sec + k + internalToUnix) := by
    intro k hk
    unfold isInt64 minInt64 maxInt64 internalToUnix
    omega
  split
  · have hk := hfits (q + 1) (by omega)
    refine Eq.trans (addSec_UnixSeconds _ _ ?_ ?_) ?_
    · exact hk.1
    · exact hk.2
    · show t.sec + (q + 1) + internalToUnix = _
      unfold internalToUnix
      omega
  · split
    · have hk := hfits (q - 1) (by omega)
      refine Eq.trans (addSec_UnixSeconds _ _ ?_ ?_) ?_
      · exact hk.1
      · exact hk.2
      · show t.sec + (q - 1) + internalToUnix = _
        unfold internalToUnix
        omega
    · have hk := hfits q (by omega)
      refine Eq.trans (addSec_UnixSeconds _ _ ?_ ?_) ?_
      · exact hk.1
      · exact hk.2
      · show t.sec + q + internalToUnix = _
        unfold internalToUnix
        omega

/-! ## Issuance: the claims of the specification -/

/-- C3: `Token` is all-or-nothing, for every generator, grant, refresh flag
and every behaviour of the lookup, the scope validator, the key parser and the
signing primitives. (1) Whenever it returns a non-nil error, the access string
and the refresh string it returns are both empty. (2) Whenever the call to
`SignedString` it made failed, it returns that failure with both strings
empty, so a signing failure never yields a refresh token. -/
theorem C3_all_or_nothing (a : JWTAccessGenerate) (env : Collaborators) (data : GenerateBasic)
    (isGenRefresh : Bool) :
    (∀ (acc ref : String) (e : GoError),
      (a.Token env data isGenRefresh).1 = Outcome.returned acc ref (some e) →
        acc = "" ∧ ref = "") ∧
    (∀ (t : jwt.Token) (k : KeyValue) (fe : ForeignError),
      Call.SignedString t k ∈ (a.Token env data isGenRefresh).2 →
      (t.SignedString env k).2 = some fe →
        (a.Token env data isGenRefresh).1 =
          Outcome.returned "" "" (some (GoError.foreign fe))) := by
  constructor
  · intro acc ref e h
    have key : ref = "" ∧ (acc = "" ∨ ∃ (t : jwt.Token) (k : KeyValue) (fe : ForeignError),
        (t.SignedString env k).2 = some fe ∧
        (t.SignedString env k).1 = acc ∧ e = GoError.foreign fe) := by
      rcases Token_cases a env data isGenRefresh with
        ⟨fe, _, ht⟩ | ⟨_, _, fe, _, ht⟩ | ⟨_, _, _, ht⟩ | ⟨_, _, ht⟩ <;> rw [ht] at h
      · simp at h
        exact ⟨h.2.1.symm, Or.inl h.1.symm⟩
      · simp at h
        exact ⟨h.2.1.symm, Or.inl h.1.symm⟩
      · exact issue_err _ _ _ _ _ _ _ _ _ _ h
      · exact issue_err _ _ _ _ _ _ _ _ _ _ h
    refine ⟨?_, key.1⟩
    rcases key.2 with h0 | ⟨t, k, fe, h1, h2, _⟩
    · exact h0
    · rw [← h2]
      exact SignedString_err t env k fe h1
  · intro t k fe hmem hfail
    rcases Token_cases a env data isGenRefresh with
      ⟨fe2, _, ht⟩ | ⟨_, _, fe2, _, ht⟩ | ⟨_, _, _, ht⟩ | ⟨_, _, ht⟩ <;> rw [ht] at hmem ⊢
    · simp at hmem
    · simp at hmem
    · exact issue_sign_fail _ _ _ _ _ _ _ _ _ _ (by simp) hmem hfail
    · exact issue_sign_fail _ _ _ _ _ _ _ _ _ _ (by simp) hmem hfail

/-- Witness for `C3_all_or_nothing`: an `HS256` generator whose key is a Go
`string`; the signer refuses it, with the refresh flag set. -/
theorem C3_all_or_nothing_witness :
    ((sampleGenerate (KeyValue.other "string") "HS256").Token sampleEnv
        (sampleGrant "u1" "") true).1 =
      Outcome.returned "" "" (some (GoError.foreign { msg := "key is of invalid type" })) :=
  (C3_all_or_nothing (sampleGenerate (KeyValue.other "string") "HS256") sampleEnv
    (sampleGrant "u1" "") true).2
    (jwt.NewWithClaims { Alg := "HS256" }
      (buildClaims (sampleGrant "u1" "") "" { ID := "u1", Email := "a@example.com" }))
    (KeyValue.other "string") { msg := "key is of invalid type" }
    (by set_option maxRecDepth 8000 in decide) (by decide)

/-- C4: (1) if the algorithm name starts with none of `ES`, `RS`, `PS`, `HS`
and lookup and scope validation succeed, `Token` returns the error built by
`errs.New("unsupported sign method")` with empty access and refresh strings,
and no call to the signer is in its trace; (2) if the algorithm name starts
with one of the four, `Token` never returns an error built by `errs.New`. -/
theorem C4_unsupported_method (a : JWTAccessGenerate) (env : Collaborators)
    (data : GenerateBasic) (isGenRefresh : Bool) :
    (strings.HasPrefix a.SignedMethod.Alg "ES" = false →
      strings.HasPrefix a.SignedMethod.Alg "RS" = false →
      strings.HasPrefix a.SignedMethod.Alg "PS" = false →
      strings.HasPrefix a.SignedMethod.Alg "HS" = false →
      (a.UserStore.GetUser data.UserID).2 = none →
      (requestedScope data ≠ "" →
        (env.validateScopeForUser (requestedScope data) data.UserID).2 = none) →
      (a.Token env data isGenRefresh).1 =
          Outcome.returned "" "" (some (GoError.New "unsupported sign method")) ∧
        ∀ t k, Call.SignedString t k ∉ (a.Token env data isGenRefresh).2) ∧
    ((strings.HasPrefix a.SignedMethod.Alg "ES" = true ∨
        strings.HasPrefix a.SignedMethod.Alg "RS" = true ∨
        strings.HasPrefix a.SignedMethod.Alg "PS" = true ∨
        strings.HasPrefix a.SignedMethod.Alg "HS" = true) →
      ∀ acc ref text, (a.Token env data isGenRefresh).1 ≠
        Outcome.returned acc ref (some (GoError.New text))) := by
  constructor
  · intro hes hrs hps hhs hlook hscope
    have h1 : a.isEs = false := hes
    have h2 : a.isRsOrPS = false := by simp [JWTAccessGenerate.isRsOrPS, hrs, hps]
    have h3 : a.isHs = false := hhs
    have hissue : ∀ scope user tr, issue a env data isGenRefresh scope user tr =
        (Outcome.returned "" "" (some (GoError.New "unsupported sign method")), tr) := by
      intro scope user tr
      simp [issue, h1, h2, h3]
    rcases Token_cases a env data isGenRefresh with
      ⟨fe, hf, _⟩ | ⟨_, hs, fe, hv, _⟩ | ⟨_, _, _, ht⟩ | ⟨_, _, ht⟩
    · rw [hlook] at hf; simp at hf
    · rw [hscope hs] at hv; simp at hv
    · rw [ht, hissue]; simp
    · rw [ht, hissue]; simp
  · intro hpre acc ref text h
    have hnot : ¬ (a.isEs = false ∧ a.isRsOrPS = false ∧ a.isHs = false) := by
      simp only [JWTAccessGenerate.isEs, JWTAccessGenerate.isRsOrPS, JWTAccessGenerate.isHs]
      intro ⟨h1, h2, h3⟩
      simp only [Bool.or_eq_false_iff] at h2
      rcases hpre with h | h | h | h <;> simp_all
    rcases Token_cases a env data isGenRefresh with
      ⟨fe, _, ht⟩ | ⟨_, _, fe, _, ht⟩ | ⟨_, _, _, ht⟩ | ⟨_, _, ht⟩ <;> rw [ht] at h
    · simp at h
    · simp at h
    · exact hnot (issue_err_New _ _ _ _ _ _ _ _ _ _ h)
    · exact hnot (issue_err_New _ _ _ _ _ _ _ _ _ _ h)

/-- Witness for `C4_unsupported_method`: the algorithm name `none`, for the
known user `u1` asking for the scope `read`. -/
theorem C4_unsupported_method_witness :
    ((sampleGenerate (KeyValue.bytes [1]) "none").Token sampleEnv (sampleGrant "u1" "read") true).1 =
        Outcome.returned "" "" (some (GoError.New "unsupported sign method")) ∧
    ∀ acc ref text,
      ((sampleGenerate (KeyValue.bytes [1]) "HS256").Token sampleEnv
        (sampleGrant "u1" "read") true).1 ≠
        Outcome.returned acc ref (some (GoError.New text)) :=
  ⟨((C4_unsupported_method (sampleGenerate (KeyValue.bytes [1]) "none") sampleEnv
      (sampleGrant "u1" "read") true).1 (by decide) (by decide) (by decide) (by decide)
      (by decide) (fun _ => by decide)).1,
    (C4_unsupported_method (sampleGenerate (KeyValue.bytes [1]) "HS256") sampleEnv
      (sampleGrant "u1" "read") true).2 (by decide)⟩

/-- C7 (counterexample): creation time in the last second `time.Time` can
hold (9223371974719179007 seconds after the epoch) and a lifetime of one
second. The run succeeds and the claims handed to the signer carry expiresAt
9223371974719179007, because `Add` saturates, while creation time plus
lifetime is 9223371974719179008 seconds after the epoch. -/
theorem C7_counterexample :
    lastSecondGrant.TokenInfo.AccessCreateAt.wf ∧
    (sampleGenerate (KeyValue.bytes [1]) "HS256").Token sampleEnv lastSecondGrant false =
      (Outcome.returned "h.p.s" "" none,
        [Call.GetUser "u1",
          Call.SignedString
            (jwt.NewWithClaims { Alg := "HS256" }
              { Scope := "", User := { Email := "a@example.com" },
                StandardClaims :=
                  { Audience := "c1", Subject := "u1", ExpiresAt := 9223371974719179007 } })
            (KeyValue.bytes [1])]) ∧
    specExpiresAt lastSecondGrant.TokenInfo = 9223371974719179008 := by
  decide

/-- C7 (amended): when `Token` succeeds, its trace holds a call to the signer
whose token carries audience = the client's identifier, subject = the grant's
user identifier, user.email = the email of the record the lookup returned,
scope = the empty string if none was requested and the validator's returned
scope otherwise, and issuer, issued-at, not-before and id at their zero
values; that call returned the access string, and every signer call in the
trace carries that token. Its expiresAt is the Unix-seconds value of creation
time plus lifetime whenever that value `E` is within the range of `time.Time`,
that is `-2^63 ≤ E` and `E + unixToInternal ≤ 2^63 - 1`. -/
theorem C7_claims_handed_to_signer (a : JWTAccessGenerate) (env : Collaborators)
    (data : GenerateBasic) (isGenRefresh : Bool) (acc ref : String)
    (h : (a.Token env data isGenRefresh).1 = Outcome.returned acc ref none) :
    ∃ tok key, Call.SignedString tok key ∈ (a.Token env data isGenRefresh).2 ∧
      tok.SignedString env key = (acc, none) ∧
      tok.Method = a.SignedMethod ∧
      tok.Claims.StandardClaims.Audience = data.Client.ID ∧
      tok.Claims.StandardClaims.Subject = data.UserID ∧
      (data.TokenInfo.AccessCreateAt.wf →
        minInt64 ≤ specExpiresAt data.TokenInfo →
        specExpiresAt data.TokenInfo + unixToInternal ≤ maxInt64 →
        tok.Claims.StandardClaims.ExpiresAt = specExpiresAt data.TokenInfo) ∧
      tok.Claims.User.Email = (a.UserStore.GetUser data.UserID).1.Email ∧
      tok.Claims.Scope =
        (if requestedScope data = "" then ""
          else (env.validateScopeForUser (requestedScope data) data.UserID).1) ∧
      tok.Claims.StandardClaims.Issuer = "" ∧
      tok.Claims.StandardClaims.IssuedAt = 0 ∧
      tok.Claims.StandardClaims.NotBefore = 0 ∧
      tok.Claims.StandardClaims.Id = "" ∧
      ∀ t k, Call.SignedString t k ∈ (a.Token env data isGenRefresh).2 → t = tok := by
  obtain ⟨scope, tr, ht, hscope, htr⟩ := Token_ok a env data isGenRefresh acc ref h
  rw [ht] at h ⊢
  obtain ⟨_, key, hmem, hsig⟩ := issue_ok _ _ _ _ _ _ _ _ _ h
  refine ⟨_, key, hmem, hsig, rfl, rfl, rfl, ?_, rfl, hscope, rfl, rfl, rfl, rfl, ?_⟩
  · intro hwf hlo hhi
    exact Add_UnixSeconds _ _ hwf hlo hhi
  · intro t k hk
    rcases issue_sign_mem _ _ _ _ _ _ _ _ _ hk with h1 | h1
    · exact absurd h1 (htr t k)
    · exact h1

/-- Witness for `C7_claims_handed_to_signer`: user `u1`, client `c1`, empty
scope, created at 1700000000 with a lifetime of 3600 seconds, no refresh. -/
theorem C7_claims_handed_to_signer_witness :
    ∃ tok key,
      Call.SignedString tok key ∈
        ((sampleGenerate (KeyValue.bytes [1]) "HS256").Token sampleEnv
          (sampleGrant "u1" "") false).2 ∧
      tok.Claims.StandardClaims.Audience = "c1" ∧
      tok.Claims.StandardClaims.Subject = "u1" ∧
      tok.Claims.StandardClaims.ExpiresAt = 1700003600 ∧
      tok.Claims.User.Email = "a@example.com" ∧
      tok.Claims.Scope = "" := by
  obtain ⟨tok, key, h1, _, _, h2, h3, h4, h5, h6, _⟩ :=
    C7_claims_handed_to_signer (sampleGenerate (KeyValue.bytes [1]) "HS256") sampleEnv
      (sampleGrant "u1" "") false "h.p.s" "" (by decide)
  exact ⟨tok, key, h1, h2, h3,
    (h4 (by decide) (by decide) (by decide)).trans (by decide), h5, h6.trans (by decide)⟩

/-- C8 (failing input): an `ES256` generator whose key is a Go `string` rather
than a byte slice. Lookup succeeds, no scope is requested, and the run panics
at the assertion `a.SignedKey.([]byte)` instead of returning an error. -/
theorem C8_non_byte_key_panics :
    (sampleGenerate (KeyValue.other "string") "ES256").Token sampleEnv (sampleGrant "u1" "") false =
      (Outcome.panicked, [Call.GetUser "u1"]) := by
  decide

/-- C9: on every successful run of `Token`, the refresh string is empty when
the refresh flag is unset; when it is set, the refresh string is non-empty and
each of its characters is one of `A`..`Z`, `0`..`9`, `-`, `_`, so none is the
padding `=` and none is a lower-case letter. -/
theorem C9_refresh_alphabet (a : JWTAccessGenerate) (env : Collaborators)
    (data : GenerateBasic) (isGenRefresh : Bool) (acc ref : String)
    (h : (a.Token env data isGenRefresh).1 = Outcome.returned acc ref none) :
    (isGenRefresh = false → ref = "") ∧
    (isGenRefresh = true → ref ≠ "" ∧
      ∀ c ∈ ref.data, isRefreshChar c = true ∧ c ≠ '=' ∧ c.isLower = false) := by
  obtain ⟨scope, tr, ht, _, _⟩ := Token_ok a env data isGenRefresh acc ref h
  rw [ht] at h
  obtain ⟨href, _⟩ := issue_ok _ _ _ _ _ _ _ _ _ h
  constructor
  · intro hf
    simpa [hf] using href
  · intro hf
    rw [hf, if_pos rfl] at href
    obtain ⟨is, hlen, hdata⟩ := refreshOf_shape env env.NewRandom.1 acc
    rw [← href] at hdata
    constructor
    · intro hempty
      rw [hempty] at hdata
      have : is.length = 0 := by
        have := congrArg List.length hdata
        simpa using this.symm
      omega
    · intro c hc
      rw [hdata] at hc
      obtain ⟨i, _, rfl⟩ := List.mem_map.1 hc
      exact toUpper_encodeAt i

/-- Witness for `C9_refresh_alphabet`: a successful run with the refresh flag
set. -/
theorem C9_refresh_alphabet_witness :
    ((sampleGenerate (KeyValue.bytes [1]) "HS256").Token sampleEnv (sampleGrant "u1" "") true).1 =
        Outcome.returned "h.p.s" "__79AAECAWT5-VV8_F7__W" none ∧
    ("__79AAECAWT5-VV8_F7__W" : String) ≠ "" ∧
    ∀ c ∈ ("__79AAECAWT5-VV8_F7__W" : String).data,
      isRefreshChar c = true ∧ c ≠ '=' ∧ c.isLower = false :=
  ⟨by decide,
    (C9_refresh_alphabet (sampleGenerate (KeyValue.bytes [1]) "HS256") sampleEnv
      (sampleGrant "u1" "") true "h.p.s" "__79AAECAWT5-VV8_F7__W" (by decide)).2 rfl⟩

/-- C10 (counterexample): a successful run with the refresh flag set whose
refresh string has 22 characters, not 27. -/
theorem C10_counterexample :
    ((sampleGenerate (KeyValue.bytes [1]) "HS256").Token sampleEnv (sampleGrant "u1" "") true).1 =
        Outcome.returned "h.p.s" "__79AAECAWT5-VV8_F7__W" none ∧
    ("__79AAECAWT5-VV8_F7__W" : String).length = 22 ∧
    ("__79AAECAWT5-VV8_F7__W" : String).length ≠ 27 := by
  decide

/-- C10 (amended): on every successful run of `Token` with the refresh flag
set, the refresh string has exactly 22 characters, the length of the unpadded
URL-safe base64 encoding of the 16 bytes (128 bits) of a UUID. -/
theorem C10_refresh_length (a : JWTAccessGenerate) (env : Collaborators)
    (data : GenerateBasic) (acc ref : String)
    (h : (a.Token env data true).1 = Outcome.returned acc ref none) :
    ref.length = 22 := by
  obtain ⟨scope, tr, ht, _, _⟩ := Token_ok a env data true acc ref h
  rw [ht] at h
  obtain ⟨href, _⟩ := issue_ok _ _ _ _ _ _ _ _ _ h
  rw [if_pos rfl] at href
  obtain ⟨is, hlen, hdata⟩ := refreshOf_shape env env.NewRandom.1 acc
  rw [← href] at hdata
  have : ref.length = ref.data.length := rfl
  rw [this, hdata, List.length_map, hlen]

/-- Witness for `C10_refresh_length`. -/
theorem C10_refresh_length_witness :
    ("__79AAECAWT5-VV8_F7__W" : String).length = 22 :=
  C10_refresh_length (sampleGenerate (KeyValue.bytes [1]) "HS256") sampleEnv
    (sampleGrant "u1" "") "h.p.s" "__79AAECAWT5-VV8_F7__W" (by decide)

end Auth
